import Mathlib

/-!
Verification development for the IMDb data downloader script
(src/data/imdb_data_downloader.py).

The script is embedded shallowly:
- the local filesystem is an explicit state (`FS`): an association list from
  path strings to byte contents, plus a list of existing directories;
- the network is an oracle `net : String → Option Response`; `none` models a
  transport-level error raised by the request itself, and a `Response` carries
  a status code, the streamed chunks, and a flag saying whether the stream
  errors out after those chunks arrived;
- gzip decompression is an oracle `gunzip : Bytes → Option Bytes`; `none`
  models a syntactically invalid compressed stream;
- file removal failure (an OSError from os.remove) is an oracle
  `removeFails : String → Bool`;
- Python exceptions become explicit result values (`FetchResult`,
  `ExtractResult`), each carrying the filesystem state at the raise point.
-/

namespace IMDbDownloader

/-- Byte contents of a file, modelled as a list of byte values. -/
abbrev Bytes := List Nat

/-- The local filesystem: files as an association list from path to content
(the most recent binding shadows older ones), and the set of directories
that exist, as a list of paths. -/
structure FS where
  files : List (String × Bytes)
  dirs : List String
deriving DecidableEq

/-- Read a file: the content at the given path, if the path exists. -/
def FS.read (fs : FS) (p : String) : Option Bytes :=
  fs.files.lookup p

/-- Path existence test, as in Python's `Path.exists()`. -/
def FS.fileExists (fs : FS) (p : String) : Bool :=
  (fs.read p).isSome

/-- Create or overwrite a file, as `open(p, 'wb')` followed by writing `v`. -/
def FS.write (fs : FS) (p : String) (v : Bytes) : FS :=
  { fs with files := (p, v) :: fs.files }

/-- Delete a file, as `os.remove(p)` (when it succeeds). -/
def FS.removeFile (fs : FS) (p : String) : FS :=
  { fs with files := fs.files.filter (fun kv => kv.1 != p) }

/-- Split a character list at every slash. -/
def splitOnSlash : List Char → List (List Char)
  | [] => [[]]
  | c :: cs =>
    let rest := splitOnSlash cs
    if c = '/' then [] :: rest
    else
      match rest with
      | [] => [[c]]
      | h :: t => (c :: h) :: t

/-- All ancestor segments of a path, outermost first, the path itself last:
`pathPrefixes "a/b/c" = ["a", "a/b", "a/b/c"]`. -/
def pathPrefixes (p : String) : List String :=
  let parts := splitOnSlash p.data
  (List.range parts.length).map (fun i =>
    String.mk (List.intercalate ['/'] (parts.take (i + 1))))

/-- `Path.mkdir(parents=True, exist_ok=True)`: add the directory and every
ancestor segment; total (a pre-existing directory is not an error). -/
def FS.mkdirParents (fs : FS) (p : String) : FS :=
  { fs with dirs := pathPrefixes p ++ fs.dirs }

/-- A network response: transport-level status code, the body as the list of
chunks yielded by `iter_content`, and whether the stream raises a
`RequestException` after those chunks have been delivered. -/
structure Response where
  status : Nat
  chunks : List Bytes
  streamError : Bool
deriving DecidableEq

/-- The full body bytes of a response. -/
def Response.body (r : Response) : Bytes :=
  r.chunks.flatten

/-- Result of `download_file`: either normal return or a raised exception
(`FetchError`-kind), each with the filesystem state at that point. -/
inductive FetchResult
  | ok (fs : FS)
  | fetchError (fs : FS)
deriving DecidableEq

/-- The filesystem state carried by a fetch result. -/
def FetchResult.fs : FetchResult → FS
  | .ok fs => fs
  | .fetchError fs => fs

/-- Result of `extract_gzip`: either normal return or a raised exception
(`ExtractError`-kind), each with the filesystem state at that point. -/
inductive ExtractResult
  | ok (fs : FS)
  | extractError (fs : FS)
deriving DecidableEq

/-- The filesystem state carried by an extract result. -/
def ExtractResult.fs : ExtractResult → FS
  | .ok fs => fs
  | .extractError fs => fs

/-- Embedding of `download_file(url, dest_path)`.
`requests.get` either raises (`net url = none`) or yields a response;
`raise_for_status()` raises for 4xx/5xx BEFORE `open(dest_path, 'wb')`, so in
that case the filesystem is untouched; otherwise the chunks are written to
`dest_path` (the open truncates/creates the file even for an empty body), and
a stream error raised during `iter_content` leaves the partial file behind. -/
def download_file (net : String → Option Response) (url : String)
    (dest_path : String) (fs : FS) : FetchResult :=
  match net url with
  | none => .fetchError fs
  | some r =>
    if 400 ≤ r.status ∧ r.status < 600 then .fetchError fs
    else
      let fs1 := fs.write dest_path r.body
      if r.streamError then .fetchError fs1 else .ok fs1

/-- Fuel-driven scan implementing Python's `str.replace` on character lists:
replace every non-overlapping occurrence of `pat`, left to right. -/
def replaceChars (pat rep : List Char) : Nat → List Char → List Char
  | _, [] => []
  | 0, l => l
  | fuel + 1, c :: cs =>
    if pat.isPrefixOf (c :: cs) then
      rep ++ replaceChars pat rep fuel ((c :: cs).drop pat.length)
    else
      c :: replaceChars pat rep fuel cs

/-- Embedding of Python's `s.replace(pat, rep)` for a nonempty pattern (the
script only uses the pattern ".gz"). -/
def replaceAll (s pat rep : String) : String :=
  if pat.data = [] then s
  else String.mk (replaceChars pat.data rep.data s.data.length s.data)

/-- Scan a reversed file name for its extension: drop everything up to and
including the last dot. `none` when the name has no suffix (no dot, or the
only dot starts the name, as in Python's `pathlib`). -/
def dropSuffixRev : List Char → Option (List Char)
  | [] => none
  | c :: rest =>
    if c = '.' then (if rest.isEmpty then none else some rest)
    else dropSuffixRev rest

/-- Split a path at its last slash: directory part (with trailing slash kept)
and final name component. -/
def splitAtLastSlash (p : String) : List Char × List Char :=
  let rev := p.data.reverse
  let revName := rev.takeWhile (fun c => c != '/')
  let revDir := rev.dropWhile (fun c => c != '/')
  (revDir.reverse, revName.reverse)

/-- Embedding of `Path.with_suffix('')`: strip the final suffix of the last
path component, if it has one. -/
def withSuffixEmpty (p : String) : String :=
  let dn := splitAtLastSlash p
  match dropSuffixRev dn.2.reverse with
  | none => p
  | some revStem => String.mk (dn.1 ++ revStem.reverse)

/-- Embedding of `extract_gzip(file_path)`. `gzip.open` fails on a missing
file before the output is opened; `open(output_path, 'wb')` truncates/creates
the output before decompression is consumed, so a corrupt archive leaves an
empty (truncated) output file behind; `os.remove` runs only after the
decompressed content was written successfully, and its failure is raised after
the output file is complete. -/
def extract_gzip (gunzip : Bytes → Option Bytes) (removeFails : String → Bool)
    (file_path : String) (fs : FS) : ExtractResult :=
  let output_path := withSuffixEmpty file_path
  match fs.read file_path with
  | none => .extractError fs
  | some data =>
    match gunzip data with
    | none => .extractError (fs.write output_path [])
    | some out =>
      let fs1 := fs.write output_path out
      if removeFails file_path then .extractError fs1
      else .ok (fs1.removeFile file_path)

/-- Base URL of the remote datasets. -/
def BASE_URL : String := "https://datasets.imdbws.com/"

/-- Output directory (`Path` normalises away the trailing slash of the
source literal "data/raw/imdb_data/"). -/
def OUTPUT_DIR : String := "data/raw/imdb_data"

/-- The fixed ordered resource list. -/
def FILES_TO_DOWNLOAD : List String :=
  ["title.basics.tsv.gz", "title.ratings.tsv.gz", "name.basics.tsv.gz", "title.crew.tsv.gz"]

/-- Path join, as `Path.__truediv__`. -/
def joinPath (d f : String) : String := d ++ "/" ++ f

/-- The archive path of a resource: `OUTPUT_DIR / filename`. -/
def gzPath (filename : String) : String := joinPath OUTPUT_DIR filename

/-- The extracted path of a resource as the orchestrator computes it:
`OUTPUT_DIR / filename.replace('.gz', '')`. -/
def tsvPath (filename : String) : String :=
  joinPath OUTPUT_DIR (replaceAll filename ".gz" "")

/-- Per-resource outcome, mirroring the logged messages of the loop body. -/
inductive ResourceOutcome
  | skipped | completed | fetchFailed | extractFailed
deriving DecidableEq

/-- The loop body of `run_pipeline` for one resource: the idempotency check,
then `download_file` followed by `extract_gzip`, with any raised failure
caught at this boundary (the `try/except/continue`). -/
def processOne (net : String → Option Response) (gunzip : Bytes → Option Bytes)
    (removeFails : String → Bool) (filename : String) (fs : FS) :
    FS × ResourceOutcome :=
  let file_url := BASE_URL ++ filename
  let gz_path := gzPath filename
  let tsv_path := tsvPath filename
  if fs.fileExists tsv_path then (fs, .skipped)
  else
    match download_file net file_url gz_path fs with
    | .fetchError fs1 => (fs1, .fetchFailed)
    | .ok fs1 =>
      match extract_gzip gunzip removeFails gz_path fs1 with
      | .extractError fs2 => (fs2, .extractFailed)
      | .ok fs2 => (fs2, .completed)

/-- The `for filename in files` loop of `run_pipeline`: sequential, one
outcome recorded per resource, in list order. -/
def processAll (net : String → Option Response) (gunzip : Bytes → Option Bytes)
    (removeFails : String → Bool) : List String → FS → FS × List ResourceOutcome
  | [], fs => (fs, [])
  | f :: rest, fs =>
    let step := processOne net gunzip removeFails f fs
    let tail := processAll net gunzip removeFails rest step.1
    (tail.1, step.2 :: tail.2)

/-- Embedding of `run_pipeline()`: create the output directory (with
parents), then process the fixed resource list. -/
def run_pipeline (net : String → Option Response) (gunzip : Bytes → Option Bytes)
    (removeFails : String → Bool) (fs : FS) : FS × List ResourceOutcome :=
  processAll net gunzip removeFails FILES_TO_DOWNLOAD (fs.mkdirParents OUTPUT_DIR)

/-! ### Basic filesystem lemmas -/

theorem lookup_cons_self (l : List (String × Bytes)) (p : String) (v : Bytes) :
    ((p, v) :: l).lookup p = some v := by
  simp [List.lookup]

theorem lookup_cons_other (l : List (String × Bytes)) {p q : String} (v : Bytes)
    (h : q ≠ p) : ((p, v) :: l).lookup q = l.lookup q := by
  have hb : (q == p) = false := by simpa using h
  simp [List.lookup, hb]

theorem lookup_filter_self (l : List (String × Bytes)) (p : String) :
    (l.filter (fun kv => kv.1 != p)).lookup p = none := by
  induction l with
  | nil => rfl
  | cons kv t ih =>
    by_cases h : kv.1 = p
    · simpa [List.filter_cons, h] using ih
    · have hb : (kv.1 != p) = true := by simpa using h
      have hb2 : (p == kv.1) = false := by simpa using (Ne.symm h)
      simp [List.filter_cons, hb, List.lookup, hb2, ih]

theorem lookup_filter_other (l : List (String × Bytes)) {p q : String}
    (h : q ≠ p) : (l.filter (fun kv => kv.1 != p)).lookup q = l.lookup q := by
  induction l with
  | nil => rfl
  | cons kv t ih =>
    by_cases hk : kv.1 = p
    · have hb : (kv.1 != p) = false := by simpa using hk
      have hq : (q == kv.1) = false := by simp [hk]; exact h
      simp [List.filter_cons, hb, List.lookup, hq, ih]
    · have hb : (kv.1 != p) = true := by simpa using hk
      by_cases hq : q = kv.1
      · simp [List.filter_cons, hb, List.lookup, hq]
      · have hq2 : (q == kv.1) = false := by simpa using hq
        simp [List.filter_cons, hb, List.lookup, hq2, ih]

theorem FS.read_write_self (fs : FS) (p : String) (v : Bytes) :
    (fs.write p v).read p = some v := by
  simp [FS.read, FS.write, lookup_cons_self]

theorem FS.read_write_other (fs : FS) {p q : String} (v : Bytes) (h : q ≠ p) :
    (fs.write p v).read q = fs.read q := by
  simp [FS.read, FS.write, lookup_cons_other _ _ h]

theorem FS.read_removeFile_self (fs : FS) (p : String) :
    (fs.removeFile p).read p = none := by
  simp [FS.read, FS.removeFile, lookup_filter_self]

theorem FS.read_removeFile_other (fs : FS) {p q : String} (h : q ≠ p) :
    (fs.removeFile p).read q = fs.read q := by
  simp [FS.read, FS.removeFile, lookup_filter_other _ h]

theorem FS.fileExists_write_self (fs : FS) (p : String) (v : Bytes) :
    (fs.write p v).fileExists p = true := by
  simp [FS.fileExists, FS.read_write_self]

theorem FS.fileExists_write_of_exists (fs : FS) (q p : String) (v : Bytes)
    (h : fs.fileExists p = true) : (fs.write q v).fileExists p = true := by
  by_cases hq : p = q
  · subst hq
    exact FS.fileExists_write_self fs p v
  · simp only [FS.fileExists, FS.read_write_other fs v hq]
    simpa [FS.fileExists] using h

theorem FS.write_dirs (fs : FS) (p : String) (v : Bytes) :
    (fs.write p v).dirs = fs.dirs := rfl

theorem FS.removeFile_dirs (fs : FS) (p : String) :
    (fs.removeFile p).dirs = fs.dirs := rfl

/-! ### Path facts about the fixed resource list, checked by evaluation -/

theorem paths_agree : ∀ f ∈ FILES_TO_DOWNLOAD, withSuffixEmpty (gzPath f) = tsvPath f := by
  decide

theorem paths_distinct : ∀ f ∈ FILES_TO_DOWNLOAD, tsvPath f ≠ gzPath f := by
  decide

theorem paths_pairwise_distinct :
    ∀ f ∈ FILES_TO_DOWNLOAD, ∀ f2 ∈ FILES_TO_DOWNLOAD, f ≠ f2 →
      gzPath f ≠ gzPath f2 ∧ gzPath f ≠ tsvPath f2 ∧
      tsvPath f ≠ gzPath f2 ∧ tsvPath f ≠ tsvPath f2 := by
  decide

/-! ### Characterisation lemmas for the embedded operations -/

theorem download_file_badStatus {net : String → Option Response} {url : String}
    {r : Response} (dest : String) (fs : FS) (hnet : net url = some r)
    (h4 : 400 ≤ r.status) (h6 : r.status < 600) :
    download_file net url dest fs = .fetchError fs := by
  unfold download_file
  rw [hnet]
  simp [h4, h6]

theorem download_file_success {net : String → Option Response} {url : String}
    {r : Response} (dest : String) (fs : FS) (hnet : net url = some r)
    (hst : ¬(400 ≤ r.status ∧ r.status < 600)) (hse : r.streamError = false) :
    download_file net url dest fs = .ok (fs.write dest r.body) := by
  unfold download_file
  rw [hnet]
  simp [hst, hse]

theorem extract_gzip_corrupt (g : Bytes → Option Bytes) (rm : String → Bool)
    {p : String} {fs : FS} {data : Bytes}
    (hread : fs.read p = some data) (hg : g data = none) :
    extract_gzip g rm p fs = .extractError (fs.write (withSuffixEmpty p) []) := by
  simp [extract_gzip, hread, hg]

theorem extract_gzip_success {g : Bytes → Option Bytes} {rm : String → Bool}
    {p : String} {fs : FS} {data out : Bytes}
    (hread : fs.read p = some data) (hg : g data = some out)
    (hrm : rm p = false) :
    extract_gzip g rm p fs = .ok ((fs.write (withSuffixEmpty p) out).removeFile p) := by
  simp [extract_gzip, hread, hg, hrm]

theorem extract_gzip_removeFailure {g : Bytes → Option Bytes} {rm : String → Bool}
    {p : String} {fs : FS} {data out : Bytes}
    (hread : fs.read p = some data) (hg : g data = some out)
    (hrm : rm p = true) :
    extract_gzip g rm p fs = .extractError (fs.write (withSuffixEmpty p) out) := by
  simp [extract_gzip, hread, hg, hrm]

theorem extract_gzip_ok_inv {g : Bytes → Option Bytes} {rm : String → Bool}
    {p : String} {fs fs2 : FS} (h : extract_gzip g rm p fs = .ok fs2) :
    ∃ data out, fs.read p = some data ∧ g data = some out ∧ rm p = false ∧
      fs2 = (fs.write (withSuffixEmpty p) out).removeFile p := by
  cases hread : fs.read p with
  | none => simp [extract_gzip, hread] at h
  | some data =>
    cases hg : g data with
    | none => simp [extract_gzip, hread, hg] at h
    | some out =>
      by_cases hrm : rm p = true
      · simp [extract_gzip, hread, hg, hrm] at h
      · have hrm2 : rm p = false := by simpa using hrm
        simp [extract_gzip, hread, hg, hrm2] at h
        exact ⟨data, out, rfl, hg, hrm2, h.symm⟩

/-! ### Orchestrator-level lemmas -/

/-- The non-skip branch of the loop body: the Fetch step followed by the
Extract step, with failures caught at this boundary. Used to state that a
resource whose extracted file is absent is retried from the fetch step. -/
def fetchThenExtract (net : String → Option Response) (gunzip : Bytes → Option Bytes)
    (removeFails : String → Bool) (filename : String) (fs : FS) :
    FS × ResourceOutcome :=
  match download_file net (BASE_URL ++ filename) (gzPath filename) fs with
  | .fetchError fs1 => (fs1, .fetchFailed)
  | .ok fs1 =>
    match extract_gzip gunzip removeFails (gzPath filename) fs1 with
    | .extractError fs2 => (fs2, .extractFailed)
    | .ok fs2 => (fs2, .completed)

theorem processOne_skip (net : String → Option Response) (g : Bytes → Option Bytes)
    (rm : String → Bool) (filename : String) {fs : FS}
    (h : fs.fileExists (tsvPath filename) = true) :
    processOne net g rm filename fs = (fs, .skipped) := by
  simp [processOne, h]

theorem processOne_notSkip (net : String → Option Response) (g : Bytes → Option Bytes)
    (rm : String → Bool) (filename : String) {fs : FS}
    (h : fs.fileExists (tsvPath filename) = false) :
    processOne net g rm filename fs = fetchThenExtract net g rm filename fs := by
  simp [processOne, fetchThenExtract, h]

theorem fetchThenExtract_ne_skipped (net : String → Option Response)
    (g : Bytes → Option Bytes) (rm : String → Bool) (filename : String) (fs : FS) :
    (fetchThenExtract net g rm filename fs).2 ≠ .skipped := by
  unfold fetchThenExtract
  cases hdf : download_file net (BASE_URL ++ filename) (gzPath filename) fs with
  | fetchError fs1 => simp
  | ok fs1 =>
    cases hex : extract_gzip g rm (gzPath filename) fs1 with
    | extractError fs2 => simp [hex]
    | ok fs2 => simp [hex]

/-- The state after one loop iteration, written through the result
projections of the two steps. -/
theorem processOne_fst (net : String → Option Response) (g : Bytes → Option Bytes)
    (rm : String → Bool) (filename : String) (fs : FS) :
    (processOne net g rm filename fs).1 =
      if fs.fileExists (tsvPath filename) then fs
      else
        match download_file net (BASE_URL ++ filename) (gzPath filename) fs with
        | .fetchError fs1 => fs1
        | .ok fs1 => (extract_gzip g rm (gzPath filename) fs1).fs := by
  by_cases h : fs.fileExists (tsvPath filename) = true
  · simp [processOne, h]
  · have hb : fs.fileExists (tsvPath filename) = false := by simpa using h
    simp only [processOne, hb, Bool.false_eq_true, if_false]
    cases hdf : download_file net (BASE_URL ++ filename) (gzPath filename) fs with
    | fetchError fs1 => simp
    | ok fs1 =>
      cases hex : extract_gzip g rm (gzPath filename) fs1 with
      | extractError fs2 => simp [hex, ExtractResult.fs]
      | ok fs2 => simp [hex, ExtractResult.fs]

theorem download_file_dirs (net : String → Option Response) (url dest : String)
    (fs : FS) : (download_file net url dest fs).fs.dirs = fs.dirs := by
  cases hnet : net url with
  | none => simp [download_file, hnet, FetchResult.fs]
  | some r =>
    by_cases h : 400 ≤ r.status ∧ r.status < 600
    · simp [download_file, hnet, h, FetchResult.fs]
    · by_cases hs : r.streamError = true
      · simp [download_file, hnet, h, hs, FetchResult.fs, FS.write]
      · have hs2 : r.streamError = false := by simpa using hs
        simp [download_file, hnet, h, hs2, FetchResult.fs, FS.write]

theorem extract_gzip_dirs (g : Bytes → Option Bytes) (rm : String → Bool)
    (p : String) (fs : FS) : (extract_gzip g rm p fs).fs.dirs = fs.dirs := by
  cases hread : fs.read p with
  | none => simp [extract_gzip, hread, ExtractResult.fs]
  | some data =>
    cases hg : g data with
    | none => simp [extract_gzip, hread, hg, ExtractResult.fs, FS.write]
    | some out =>
      by_cases hrm : rm p = true
      · simp [extract_gzip, hread, hg, hrm, ExtractResult.fs, FS.write]
      · have hrm2 : rm p = false := by simpa using hrm
        simp [extract_gzip, hread, hg, hrm2, ExtractResult.fs, FS.write, FS.removeFile]

theorem processOne_dirs (net : String → Option Response) (g : Bytes → Option Bytes)
    (rm : String → Bool) (filename : String) (fs : FS) :
    (processOne net g rm filename fs).1.dirs = fs.dirs := by
  rw [processOne_fst]
  by_cases h : fs.fileExists (tsvPath filename) = true
  · simp [h]
  · have hb : fs.fileExists (tsvPath filename) = false := by simpa using h
    simp only [hb, Bool.false_eq_true, if_false]
    cases hdf : download_file net (BASE_URL ++ filename) (gzPath filename) fs with
    | fetchError fs1 =>
      have hd := download_file_dirs net (BASE_URL ++ filename) (gzPath filename) fs
      rw [hdf] at hd
      simpa [FetchResult.fs] using hd
    | ok fs1 =>
      have hd := download_file_dirs net (BASE_URL ++ filename) (gzPath filename) fs
      rw [hdf] at hd
      simp only [FetchResult.fs] at hd
      rw [extract_gzip_dirs, hd]

theorem processAll_dirs (net : String → Option Response) (g : Bytes → Option Bytes)
    (rm : String → Bool) (files : List String) (fs : FS) :
    (processAll net g rm files fs).1.dirs = fs.dirs := by
  induction files generalizing fs with
  | nil => rfl
  | cons f rest ih =>
    simp only [processAll]
    rw [ih, processOne_dirs]

theorem processAll_length (net : String → Option Response) (g : Bytes → Option Bytes)
    (rm : String → Bool) (files : List String) (fs : FS) :
    (processAll net g rm files fs).2.length = files.length := by
  induction files generalizing fs with
  | nil => rfl
  | cons f rest ih => simp [processAll, ih]

/-! ### Frame lemmas: a resource's processing only touches its own paths -/

theorem download_file_read_frame (net : String → Option Response) (url dest : String)
    (fs : FS) {q : String} (hq : q ≠ dest) :
    (download_file net url dest fs).fs.read q = fs.read q := by
  cases hnet : net url with
  | none => simp [download_file, hnet, FetchResult.fs]
  | some r =>
    by_cases h : 400 ≤ r.status ∧ r.status < 600
    · simp [download_file, hnet, h, FetchResult.fs]
    · by_cases hs : r.streamError = true
      · simp [download_file, hnet, h, hs, FetchResult.fs, FS.read_write_other _ _ hq]
      · have hs2 : r.streamError = false := by simpa using hs
        simp [download_file, hnet, h, hs2, FetchResult.fs, FS.read_write_other _ _ hq]

theorem extract_gzip_read_frame (g : Bytes → Option Bytes) (rm : String → Bool)
    (p : String) (fs : FS) {q : String} (hq1 : q ≠ p)
    (hq2 : q ≠ withSuffixEmpty p) :
    (extract_gzip g rm p fs).fs.read q = fs.read q := by
  cases hread : fs.read p with
  | none => simp [extract_gzip, hread, ExtractResult.fs]
  | some data =>
    cases hg : g data with
    | none => simp [extract_gzip, hread, hg, ExtractResult.fs, FS.read_write_other _ _ hq2]
    | some out =>
      by_cases hrm : rm p = true
      · simp [extract_gzip, hread, hg, hrm, ExtractResult.fs, FS.read_write_other _ _ hq2]
      · have hrm2 : rm p = false := by simpa using hrm
        simp [extract_gzip, hread, hg, hrm2, ExtractResult.fs,
          FS.read_removeFile_other _ hq1, FS.read_write_other _ _ hq2]

theorem processOne_read_frame (net : String → Option Response) (g : Bytes → Option Bytes)
    (rm : String → Bool) {filename : String} (hf : filename ∈ FILES_TO_DOWNLOAD)
    {q : String} (hq1 : q ≠ gzPath filename) (hq2 : q ≠ tsvPath filename) (fs : FS) :
    (processOne net g rm filename fs).1.read q = fs.read q := by
  have hq3 : q ≠ withSuffixEmpty (gzPath filename) := by
    rw [paths_agree filename hf]; exact hq2
  rw [processOne_fst]
  by_cases h : fs.fileExists (tsvPath filename) = true
  · simp [h]
  · have hb : fs.fileExists (tsvPath filename) = false := by simpa using h
    simp only [hb, Bool.false_eq_true, if_false]
    cases hdf : download_file net (BASE_URL ++ filename) (gzPath filename) fs with
    | fetchError fs1 =>
      have hd := download_file_read_frame net (BASE_URL ++ filename) (gzPath filename) fs hq1
      rw [hdf] at hd
      simpa [FetchResult.fs] using hd
    | ok fs1 =>
      have hd := download_file_read_frame net (BASE_URL ++ filename) (gzPath filename) fs hq1
      rw [hdf] at hd
      simp only [FetchResult.fs] at hd
      rw [extract_gzip_read_frame g rm (gzPath filename) fs1 hq1 hq3, hd]

/-! ### Iterated runs and preservation of a resource's files -/

/-- The filesystem after one full run. -/
def runFS (net : String → Option Response) (gunzip : Bytes → Option Bytes)
    (removeFails : String → Bool) (fs : FS) : FS :=
  (run_pipeline net gunzip removeFails fs).1

/-- The filesystem after `n` successive full runs. -/
def iterRunFS (net : String → Option Response) (gunzip : Bytes → Option Bytes)
    (removeFails : String → Bool) : Nat → FS → FS
  | 0, fs => fs
  | n + 1, fs => iterRunFS net gunzip removeFails n (runFS net gunzip removeFails fs)

theorem FS.read_mkdirParents (fs : FS) (p q : String) :
    (fs.mkdirParents p).read q = fs.read q := rfl

theorem FS.fileExists_mkdirParents (fs : FS) (p q : String) :
    (fs.mkdirParents p).fileExists q = fs.fileExists q := rfl

theorem processOne_preserves_pair (net : String → Option Response)
    (g : Bytes → Option Bytes) (rm : String → Bool) {filename : String}
    (hf : filename ∈ FILES_TO_DOWNLOAD) (f2 : String)
    (hf2 : f2 ∈ FILES_TO_DOWNLOAD) {fs : FS}
    (h1 : fs.fileExists (gzPath filename) = true)
    (h2 : fs.fileExists (tsvPath filename) = true) :
    (processOne net g rm f2 fs).1.fileExists (gzPath filename) = true ∧
    (processOne net g rm f2 fs).1.fileExists (tsvPath filename) = true := by
  by_cases heq : f2 = filename
  · subst heq
    rw [processOne_skip net g rm f2 h2]
    exact ⟨h1, h2⟩
  · have hd := paths_pairwise_distinct filename hf f2 hf2 (Ne.symm heq)
    have r1 := processOne_read_frame net g rm hf2 hd.1 hd.2.1 fs
    have r2 := processOne_read_frame net g rm hf2 hd.2.2.1 hd.2.2.2 fs
    constructor
    · simp only [FS.fileExists, r1]
      simpa [FS.fileExists] using h1
    · simp only [FS.fileExists, r2]
      simpa [FS.fileExists] using h2

theorem processAll_preserves_pair (net : String → Option Response)
    (g : Bytes → Option Bytes) (rm : String → Bool) {filename : String}
    (hf : filename ∈ FILES_TO_DOWNLOAD) :
    ∀ (files : List String), (∀ f2 ∈ files, f2 ∈ FILES_TO_DOWNLOAD) → ∀ {fs : FS},
      fs.fileExists (gzPath filename) = true →
      fs.fileExists (tsvPath filename) = true →
      (processAll net g rm files fs).1.fileExists (gzPath filename) = true ∧
      (processAll net g rm files fs).1.fileExists (tsvPath filename) = true := by
  intro files
  induction files with
  | nil => intro _ fs h1 h2; exact ⟨h1, h2⟩
  | cons f2 rest ih =>
    intro hsub fs h1 h2
    have hstep := processOne_preserves_pair net g rm hf f2
      (hsub f2 (List.mem_cons_self f2 rest)) h1 h2
    have hsub2 : ∀ x ∈ rest, x ∈ FILES_TO_DOWNLOAD :=
      fun x hx => hsub x (List.mem_cons_of_mem f2 hx)
    simpa [processAll] using ih hsub2 hstep.1 hstep.2

theorem runFS_preserves_pair (net : String → Option Response)
    (g : Bytes → Option Bytes) (rm : String → Bool) {filename : String}
    (hf : filename ∈ FILES_TO_DOWNLOAD) {fs : FS}
    (h1 : fs.fileExists (gzPath filename) = true)
    (h2 : fs.fileExists (tsvPath filename) = true) :
    (runFS net g rm fs).fileExists (gzPath filename) = true ∧
    (runFS net g rm fs).fileExists (tsvPath filename) = true := by
  unfold runFS run_pipeline
  exact processAll_preserves_pair net g rm hf FILES_TO_DOWNLOAD (fun f2 h => h) h1 h2

theorem iterRunFS_preserves_pair (net : String → Option Response)
    (g : Bytes → Option Bytes) (rm : String → Bool) {filename : String}
    (hf : filename ∈ FILES_TO_DOWNLOAD) (n : Nat) :
    ∀ {fs : FS}, fs.fileExists (gzPath filename) = true →
      fs.fileExists (tsvPath filename) = true →
      (iterRunFS net g rm n fs).fileExists (gzPath filename) = true ∧
      (iterRunFS net g rm n fs).fileExists (tsvPath filename) = true := by
  induction n with
  | zero => intro fs h1 h2; exact ⟨h1, h2⟩
  | succ n ih =>
    intro fs h1 h2
    have hr := runFS_preserves_pair net g rm hf h1 h2
    exact ih hr.1 hr.2

/-- Inversion of a completed loop iteration: a `.completed` outcome can only
arise from a successful fetch followed by a successful extraction, whose final
state removed the archive after writing the output. -/
theorem processOne_completed_inv {net : String → Option Response}
    {g : Bytes → Option Bytes} {rm : String → Bool} {filename : String}
    {fs fs1 : FS}
    (h : processOne net g rm filename fs = (fs1, .completed)) :
    ∃ fsd data out,
      download_file net (BASE_URL ++ filename) (gzPath filename) fs = .ok fsd ∧
      fsd.read (gzPath filename) = some data ∧ g data = some out ∧
      rm (gzPath filename) = false ∧
      fs1 = (fsd.write (withSuffixEmpty (gzPath filename)) out).removeFile (gzPath filename) := by
  by_cases hex : fs.fileExists (tsvPath filename) = true
  · rw [processOne_skip net g rm filename hex] at h
    simp at h
  · have hb : fs.fileExists (tsvPath filename) = false := by simpa using hex
    rw [processOne_notSkip net g rm filename hb] at h
    unfold fetchThenExtract at h
    cases hdf : download_file net (BASE_URL ++ filename) (gzPath filename) fs with
    | fetchError fsd => simp only [hdf] at h; simp at h
    | ok fsd =>
      simp only [hdf] at h
      cases hext : extract_gzip g rm (gzPath filename) fsd with
      | extractError fs2 => simp only [hext] at h; simp at h
      | ok fs2 =>
        simp only [hext, Prod.mk.injEq] at h
        obtain ⟨data, out, hread, hg, hrm, hfs2⟩ := extract_gzip_ok_inv hext
        exact ⟨fsd, data, out, rfl, hread, hg, hrm, by rw [← h.1, hfs2]⟩

/-! ### Concrete oracles and states used in closed statements -/

/-- Network oracle: every request raises a transport error. -/
def netNone : String → Option Response := fun _ => none

/-- Network oracle: every request answers 404 with an empty body. -/
def net404 : String → Option Response :=
  fun _ => some { status := 404, chunks := [], streamError := false }

/-- Network oracle: every request succeeds with body bytes `[1, 2]` streamed
in two chunks. -/
def netOK : String → Option Response :=
  fun _ => some { status := 200, chunks := [[1], [2]], streamError := false }

/-- Network oracle: the second resource of the fixed list answers 500,
every other request succeeds. -/
def netFail2 : String → Option Response := fun u =>
  if u = BASE_URL ++ "title.ratings.tsv.gz" then
    some { status := 500, chunks := [], streamError := false }
  else some { status := 200, chunks := [[1], [2]], streamError := false }

/-- Decompression oracle: the stream `[1, 2]` decompresses to `[7, 8]`;
anything else is invalid. -/
def gzOK : Bytes → Option Bytes := fun d => if d = [1, 2] then some [7, 8] else none

/-- Decompression oracle: every stream is invalid. -/
def gzBad : Bytes → Option Bytes := fun _ => none

/-- Removal oracle: `os.remove` always succeeds. -/
def rmNever : String → Bool := fun _ => false

/-- Removal oracle: `os.remove` always fails. -/
def rmAlways : String → Bool := fun _ => true

/-- The empty filesystem. -/
def emptyFS : FS := { files := [], dirs := [] }

/-- A filesystem holding the extracted file of the first resource. -/
def fsTsv1 : FS := { files := [(tsvPath "title.basics.tsv.gz", [9])], dirs := [] }

/-- A filesystem holding only the archive of the first resource, with
content bytes `[1, 2]`. -/
def fsGz1 : FS := { files := [(gzPath "title.basics.tsv.gz", [1, 2])], dirs := [] }

/-- The filesystem left by a completed processing of the first resource
starting from the empty filesystem with the `netOK`/`gzOK` oracles. -/
def fsDone1 : FS := { files := [(tsvPath "title.basics.tsv.gz", [7, 8])], dirs := [] }

/-- A filesystem holding all four extracted files plus a stale archive of the
first resource. -/
def fsAllExtracted : FS :=
  { files := (FILES_TO_DOWNLOAD.map (fun f => (tsvPath f, [0]))) ++
      [(gzPath "title.basics.tsv.gz", [1])],
    dirs := [] }

/-! ### Claims -/

/-- C1: For every resource in the fixed list, the orchestrator skips the
resource (returning the filesystem unmodified, with no dependence on the
network oracle and no write) if and only if the extracted file already exists
before processing; when the extracted file is absent — in particular when
only a stale archive is present — the resource is not skipped and is retried
from the fetch step, re-downloading. -/
theorem C1_skip_iff_extracted_exists (filename : String)
    (_hf : filename ∈ FILES_TO_DOWNLOAD) (net : String → Option Response)
    (g : Bytes → Option Bytes) (rm : String → Bool) (fs : FS) :
    (processOne net g rm filename fs = (fs, .skipped) ↔
      fs.fileExists (tsvPath filename) = true) ∧
    (fs.fileExists (tsvPath filename) = false →
      processOne net g rm filename fs = fetchThenExtract net g rm filename fs) := by
  constructor
  · constructor
    · intro h
      by_contra hne
      have hb : fs.fileExists (tsvPath filename) = false := by simpa using hne
      rw [processOne_notSkip net g rm filename hb] at h
      have hns := fetchThenExtract_ne_skipped net g rm filename fs
      rw [h] at hns
      exact hns rfl
    · intro h
      exact processOne_skip net g rm filename h
  · intro h
    exact processOne_notSkip net g rm filename h

theorem C1_witness :
    (fsTsv1.fileExists (tsvPath "title.basics.tsv.gz") = true ∧
     processOne netOK gzOK rmNever "title.basics.tsv.gz" fsTsv1 = (fsTsv1, .skipped)) ∧
    (emptyFS.fileExists (tsvPath "title.basics.tsv.gz") = false ∧
     processOne netOK gzOK rmNever "title.basics.tsv.gz" emptyFS =
       fetchThenExtract netOK gzOK rmNever "title.basics.tsv.gz" emptyFS) :=
  ⟨⟨by decide,
    (C1_skip_iff_extracted_exists "title.basics.tsv.gz" (by decide) netOK gzOK
      rmNever fsTsv1).1.mpr (by decide)⟩,
   ⟨by decide,
    (C1_skip_iff_extracted_exists "title.basics.tsv.gz" (by decide) netOK gzOK
      rmNever emptyFS).2 (by decide)⟩⟩

/-- C2: Every failure of a resource's fetch/extract sequence is caught at the
per-resource boundary and the loop proceeds in list order: for every resource
list, oracle behaviour and initial state, the run records exactly one outcome
per resource (it never raises past the boundary and never aborts early); and
in the concrete scenario where resource #2 of the fixed four answers a
non-success status, resources #1, #3 and #4 are still attempted and complete. -/
theorem C2_failure_isolation :
    (∀ (net : String → Option Response) (g : Bytes → Option Bytes)
       (rm : String → Bool) (files : List String) (fs : FS),
       (processAll net g rm files fs).2.length = files.length) ∧
    (run_pipeline netFail2 gzOK rmNever emptyFS).2 =
      [.completed, .fetchFailed, .completed, .completed] :=
  ⟨fun net g rm files fs => processAll_length net g rm files fs, by decide⟩

/-- C7: For every initial filesystem state and oracle behaviour, the
orchestrator creates the output directory and its missing parent segments
before processing any resource (the run equals the processing loop applied to
the state after directory creation), and all three directory segments are
present in the final state; directory creation is total, so a pre-existing
output directory is not an error. -/
theorem C7_directory_creation (net : String → Option Response)
    (g : Bytes → Option Bytes) (rm : String → Bool) (fs : FS) :
    run_pipeline net g rm fs =
      processAll net g rm FILES_TO_DOWNLOAD (fs.mkdirParents OUTPUT_DIR) ∧
    "data" ∈ (run_pipeline net g rm fs).1.dirs ∧
    "data/raw" ∈ (run_pipeline net g rm fs).1.dirs ∧
    OUTPUT_DIR ∈ (run_pipeline net g rm fs).1.dirs := by
  have hd : (run_pipeline net g rm fs).1.dirs = pathPrefixes OUTPUT_DIR ++ fs.dirs := by
    unfold run_pipeline
    rw [processAll_dirs]
    rfl
  refine ⟨rfl, ?_, ?_, ?_⟩ <;> rw [hd]
  · exact List.mem_append_left _ (by decide)
  · exact List.mem_append_left _ (by decide)
  · exact List.mem_append_left _ (by decide)

/-- C8: For each of the four fixed resource filenames, the extracted path the
orchestrator computes (filename with every occurrence of ".gz" replaced by
the empty string, joined to the output directory) equals the output path the
extractor computes (the archive path with its final suffix stripped): the
file tested by the idempotency check is exactly the file the extractor
writes. -/
theorem C8_extracted_path_agreement :
    tsvPath "title.basics.tsv.gz" = withSuffixEmpty (gzPath "title.basics.tsv.gz") ∧
    tsvPath "title.ratings.tsv.gz" = withSuffixEmpty (gzPath "title.ratings.tsv.gz") ∧
    tsvPath "name.basics.tsv.gz" = withSuffixEmpty (gzPath "name.basics.tsv.gz") ∧
    tsvPath "title.crew.tsv.gz" = withSuffixEmpty (gzPath "title.crew.tsv.gz") := by
  decide

/-- C3: For every resource of the fixed list whose source is reachable and
returns a valid compressed stream (success status, no stream error, valid
archive bytes, removable archive), processing completes, the archive file
does not exist afterwards, and the extracted file exists with content equal
to the decompressed bytes of the downloaded stream. -/
theorem C3_successful_roundtrip (filename : String)
    (hf : filename ∈ FILES_TO_DOWNLOAD) (net : String → Option Response)
    (g : Bytes → Option Bytes) (rm : String → Bool) (fs : FS) (r : Response)
    (out : Bytes)
    (hnet : net (BASE_URL ++ filename) = some r)
    (hst : ¬(400 ≤ r.status ∧ r.status < 600))
    (hse : r.streamError = false)
    (hg : g r.body = some out)
    (hrm : rm (gzPath filename) = false)
    (hts : fs.fileExists (tsvPath filename) = false) :
    (processOne net g rm filename fs).2 = .completed ∧
    (processOne net g rm filename fs).1.fileExists (gzPath filename) = false ∧
    (processOne net g rm filename fs).1.read (tsvPath filename) = some out := by
  have h1 : (fs.write (gzPath filename) r.body).read (gzPath filename) = some r.body :=
    FS.read_write_self fs (gzPath filename) r.body
  have hext := extract_gzip_success h1 hg hrm
  rw [paths_agree filename hf] at hext
  have hstep : processOne net g rm filename fs =
      (((fs.write (gzPath filename) r.body).write (tsvPath filename) out).removeFile
        (gzPath filename), .completed) := by
    rw [processOne_notSkip net g rm filename hts]
    unfold fetchThenExtract
    rw [download_file_success (gzPath filename) fs hnet hst hse]
    simp only [hext]
  rw [hstep]
  refine ⟨rfl, ?_, ?_⟩
  · simp [FS.fileExists, FS.read_removeFile_self]
  · rw [FS.read_removeFile_other _ (paths_distinct filename hf), FS.read_write_self]

theorem C3_witness :
    (processOne netOK gzOK rmNever "title.basics.tsv.gz" emptyFS).2 = .completed ∧
    (processOne netOK gzOK rmNever "title.basics.tsv.gz" emptyFS).1.fileExists
      (gzPath "title.basics.tsv.gz") = false ∧
    (processOne netOK gzOK rmNever "title.basics.tsv.gz" emptyFS).1.read
      (tsvPath "title.basics.tsv.gz") = some [7, 8] :=
  C3_successful_roundtrip "title.basics.tsv.gz" (by decide) netOK gzOK rmNever
    emptyFS { status := 200, chunks := [[1], [2]], streamError := false } [7, 8]
    (by decide) (by decide) (by decide) (by decide) (by decide) (by decide)

/-- C4: For every archive path whose content is not a valid compressed
stream, the extractor signals an ExtractError-kind failure and the archive
file still exists afterwards (only the truncated output file was touched);
and in general the archive is deleted only by the success path: if the
archive existed and is gone after extraction, then decompression succeeded,
the output was written, the removal succeeded, and the extractor returned
normally. -/
theorem C4_corrupt_archive_not_deleted (g : Bytes → Option Bytes)
    (rm : String → Bool) (p : String) (fs : FS) :
    (∀ data, fs.read p = some data → g data = none →
      extract_gzip g rm p fs = .extractError (fs.write (withSuffixEmpty p) []) ∧
      (extract_gzip g rm p fs).fs.fileExists p = true) ∧
    ((extract_gzip g rm p fs).fs.fileExists p = false →
      fs.fileExists p = false ∨
      ∃ data out, fs.read p = some data ∧ g data = some out ∧ rm p = false ∧
        extract_gzip g rm p fs = .ok ((fs.write (withSuffixEmpty p) out).removeFile p)) := by
  constructor
  · intro data hread hg
    have he := extract_gzip_corrupt g rm hread hg
    refine ⟨he, ?_⟩
    rw [he]
    exact FS.fileExists_write_of_exists fs _ p _ (by simp [FS.fileExists, hread])
  · intro h
    cases hread : fs.read p with
    | none => exact Or.inl (by simp [FS.fileExists, hread])
    | some data =>
      cases hg : g data with
      | none =>
        have he := extract_gzip_corrupt g rm hread hg
        rw [he] at h
        have ht : ((fs.write (withSuffixEmpty p) []).fileExists p) = true :=
          FS.fileExists_write_of_exists fs _ p _ (by simp [FS.fileExists, hread])
        simp only [ExtractResult.fs] at h
        rw [ht] at h
        cases h
      | some out =>
        by_cases hrm : rm p = true
        · have he := extract_gzip_removeFailure hread hg hrm
          rw [he] at h
          have ht : ((fs.write (withSuffixEmpty p) out).fileExists p) = true :=
            FS.fileExists_write_of_exists fs _ p _ (by simp [FS.fileExists, hread])
          simp only [ExtractResult.fs] at h
          rw [ht] at h
          cases h
        · have hrm2 : rm p = false := by simpa using hrm
          exact Or.inr ⟨data, out, rfl, hg, hrm2, extract_gzip_success hread hg hrm2⟩

theorem C4_witness :
    extract_gzip gzBad rmNever (gzPath "title.basics.tsv.gz") fsGz1 =
      .extractError (fsGz1.write (withSuffixEmpty (gzPath "title.basics.tsv.gz")) []) ∧
    (extract_gzip gzBad rmNever (gzPath "title.basics.tsv.gz") fsGz1).fs.fileExists
      (gzPath "title.basics.tsv.gz") = true :=
  (C4_corrupt_archive_not_deleted gzBad rmNever (gzPath "title.basics.tsv.gz") fsGz1).1
    [1, 2] (by decide) (by decide)

/-- C5: For every fetch whose response carries a 4xx/5xx status, the fetcher
inspects the response and raises a FetchError-kind failure before streaming
the body, leaving the filesystem untouched, so no archive file is created;
and the concrete all-404 run creates no file, reports a FetchError-kind
failure for every resource, and completes without crashing. -/
theorem C5_nonsuccess_response (net : String → Option Response)
    (url dest : String) (fs : FS) (r : Response)
    (hnet : net url = some r) (h4 : 400 ≤ r.status) (h6 : r.status < 600) :
    download_file net url dest fs = .fetchError fs ∧
    (run_pipeline net404 gzOK rmNever emptyFS).1.files = [] ∧
    (run_pipeline net404 gzOK rmNever emptyFS).2 =
      [.fetchFailed, .fetchFailed, .fetchFailed, .fetchFailed] :=
  ⟨download_file_badStatus dest fs hnet h4 h6, by decide, by decide⟩

theorem C5_witness :
    download_file net404 (BASE_URL ++ "title.basics.tsv.gz")
      (gzPath "title.basics.tsv.gz") emptyFS = .fetchError emptyFS ∧
    (run_pipeline net404 gzOK rmNever emptyFS).1.files = [] ∧
    (run_pipeline net404 gzOK rmNever emptyFS).2 =
      [.fetchFailed, .fetchFailed, .fetchFailed, .fetchFailed] :=
  C5_nonsuccess_response net404 (BASE_URL ++ "title.basics.tsv.gz")
    (gzPath "title.basics.tsv.gz") emptyFS
    { status := 404, chunks := [], streamError := false }
    (by decide) (by decide) (by decide)

/-- C9: For every fetch whose response carries a non-success status, the
fetcher raises before the destination file is ever opened: the returned
failure carries exactly the unchanged filesystem, so the destination file is
neither created nor modified. -/
theorem C9_status_failure_leaves_fs_unchanged (net : String → Option Response)
    (url dest : String) (fs : FS) (r : Response)
    (hnet : net url = some r) (h4 : 400 ≤ r.status) (h6 : r.status < 600) :
    download_file net url dest fs = .fetchError fs ∧
    (download_file net url dest fs).fs = fs ∧
    (download_file net url dest fs).fs.read dest = fs.read dest := by
  have h := download_file_badStatus dest fs hnet h4 h6
  exact ⟨h, by simp [h, FetchResult.fs], by simp [h, FetchResult.fs]⟩

theorem C9_witness :
    download_file net404 (BASE_URL ++ "title.crew.tsv.gz")
      (gzPath "title.crew.tsv.gz") fsTsv1 = .fetchError fsTsv1 ∧
    (download_file net404 (BASE_URL ++ "title.crew.tsv.gz")
      (gzPath "title.crew.tsv.gz") fsTsv1).fs = fsTsv1 ∧
    (download_file net404 (BASE_URL ++ "title.crew.tsv.gz")
      (gzPath "title.crew.tsv.gz") fsTsv1).fs.read (gzPath "title.crew.tsv.gz") =
      fsTsv1.read (gzPath "title.crew.tsv.gz") :=
  C9_status_failure_leaves_fs_unchanged net404 (BASE_URL ++ "title.crew.tsv.gz")
    (gzPath "title.crew.tsv.gz") fsTsv1
    { status := 404, chunks := [], streamError := false }
    (by decide) (by decide) (by decide)

/-- C6 counterexample: in the initial state where all four extracted files
exist and a stale archive of the first resource also exists, the run is fully
successful (every resource is skipped, no failure occurs), yet afterwards
BOTH the archive file and the extracted file of the first resource persist —
refuting the claim that after every successful run at most one of the two
persists and that a skipped resource leaves only the extracted file. -/
theorem C6_counterexample :
    (run_pipeline netNone gzBad rmNever fsAllExtracted).2 =
      [.skipped, .skipped, .skipped, .skipped] ∧
    (run_pipeline netNone gzBad rmNever fsAllExtracted).1.fileExists
      (gzPath "title.basics.tsv.gz") = true ∧
    (run_pipeline netNone gzBad rmNever fsAllExtracted).1.fileExists
      (tsvPath "title.basics.tsv.gz") = true := by
  decide

/-- C6 (amended): for every resource of the fixed list, a resource that
completed ends with the archive removed and only the extracted file present;
a skipped resource leaves the filesystem unchanged, so it ends with at most
one of the two files provided its archive was not already present before the
run (a stale archive predating the run persists through a skip). -/
theorem C6_at_most_one_persists (filename : String)
    (hf : filename ∈ FILES_TO_DOWNLOAD) (net : String → Option Response)
    (g : Bytes → Option Bytes) (rm : String → Bool) (fs fs1 : FS)
    (o : ResourceOutcome)
    (h : processOne net g rm filename fs = (fs1, o)) :
    (o = .completed →
      fs1.fileExists (gzPath filename) = false ∧
      fs1.fileExists (tsvPath filename) = true) ∧
    (o = .skipped →
      fs1 = fs ∧
      (fs.fileExists (gzPath filename) = false →
        ¬(fs1.fileExists (gzPath filename) = true ∧
          fs1.fileExists (tsvPath filename) = true))) := by
  constructor
  · intro ho
    subst ho
    obtain ⟨fsd, data, out, hdf, hread, hg, hrm, hfs1⟩ := processOne_completed_inv h
    subst hfs1
    constructor
    · simp [FS.fileExists, FS.read_removeFile_self]
    · rw [paths_agree filename hf]
      simp only [FS.fileExists]
      rw [FS.read_removeFile_other _ (paths_distinct filename hf), FS.read_write_self]
      rfl
  · intro ho
    subst ho
    have hfs : fs1 = fs := by
      by_cases hex : fs.fileExists (tsvPath filename) = true
      · have hs := processOne_skip net g rm filename hex
        rw [h] at hs
        exact (Prod.ext_iff.mp hs).1
      · have hb : fs.fileExists (tsvPath filename) = false := by simpa using hex
        have hne := fetchThenExtract_ne_skipped net g rm filename fs
        rw [← processOne_notSkip net g rm filename hb, h] at hne
        exact absurd rfl hne
    subst hfs
    refine ⟨rfl, ?_⟩
    intro hgz hcontra
    have hft : (false : Bool) = true := hgz ▸ hcontra.1
    cases hft

theorem C6_witness :
    fsDone1.fileExists (gzPath "title.basics.tsv.gz") = false ∧
    fsDone1.fileExists (tsvPath "title.basics.tsv.gz") = true :=
  (C6_at_most_one_persists "title.basics.tsv.gz" (by decide) netOK gzOK rmNever
    emptyFS fsDone1 .completed (by decide)).1 rfl

/-- C10: For every resource of the fixed list, if decompression and the write
of the extracted file succeed but the deletion of the archive fails, the
extractor raises an ExtractError-kind failure while the complete extracted
file persists alongside the archive; because the idempotency check tests only
the extracted file, every subsequent run — for any oracle behaviour and any
number of runs — skips this resource, so the leftover archive is never
removed by any later run. -/
theorem C10_stale_archive_never_removed (filename : String)
    (hf : filename ∈ FILES_TO_DOWNLOAD) (g : Bytes → Option Bytes)
    (rm : String → Bool) (fs : FS) (data out : Bytes)
    (hread : fs.read (gzPath filename) = some data)
    (hg : g data = some out)
    (hrm : rm (gzPath filename) = true) :
    extract_gzip g rm (gzPath filename) fs =
      .extractError (fs.write (tsvPath filename) out) ∧
    (fs.write (tsvPath filename) out).read (tsvPath filename) = some out ∧
    (fs.write (tsvPath filename) out).fileExists (gzPath filename) = true ∧
    ∀ (net2 : String → Option Response) (g2 : Bytes → Option Bytes)
      (rm2 : String → Bool) (n : Nat),
      (iterRunFS net2 g2 rm2 n (fs.write (tsvPath filename) out)).fileExists
        (gzPath filename) = true ∧
      processOne net2 g2 rm2 filename
          (iterRunFS net2 g2 rm2 n (fs.write (tsvPath filename) out)) =
        (iterRunFS net2 g2 rm2 n (fs.write (tsvPath filename) out), .skipped) := by
  have he := extract_gzip_removeFailure hread hg hrm
  rw [paths_agree filename hf] at he
  have h1 : (fs.write (tsvPath filename) out).fileExists (gzPath filename) = true := by
    simp only [FS.fileExists,
      FS.read_write_other fs out (Ne.symm (paths_distinct filename hf)), hread]
    rfl
  have h2 : (fs.write (tsvPath filename) out).fileExists (tsvPath filename) = true :=
    FS.fileExists_write_self fs (tsvPath filename) out
  refine ⟨he, FS.read_write_self fs (tsvPath filename) out, h1, ?_⟩
  intro net2 g2 rm2 n
  have hp := iterRunFS_preserves_pair net2 g2 rm2 hf n h1 h2
  exact ⟨hp.1, processOne_skip net2 g2 rm2 filename hp.2⟩

theorem C10_witness :
    extract_gzip gzOK rmAlways (gzPath "title.basics.tsv.gz") fsGz1 =
      .extractError (fsGz1.write (tsvPath "title.basics.tsv.gz") [7, 8]) ∧
    (iterRunFS netNone gzBad rmNever 3
        (fsGz1.write (tsvPath "title.basics.tsv.gz") [7, 8])).fileExists
      (gzPath "title.basics.tsv.gz") = true ∧
    processOne netNone gzBad rmNever "title.basics.tsv.gz"
        (iterRunFS netNone gzBad rmNever 3
          (fsGz1.write (tsvPath "title.basics.tsv.gz") [7, 8])) =
      (iterRunFS netNone gzBad rmNever 3
        (fsGz1.write (tsvPath "title.basics.tsv.gz") [7, 8]), .skipped) := by
  have h := C10_stale_archive_never_removed "title.basics.tsv.gz" (by decide) gzOK
    rmAlways fsGz1 [1, 2] [7, 8] (by decide) (by decide) (by decide)
  exact ⟨h.1, (h.2.2.2 netNone gzBad rmNever 3).1, (h.2.2.2 netNone gzBad rmNever 3).2⟩

end IMDbDownloader
